/-
Verification of the NOTAM ingestion service (TypeScript) against its
natural-language specification.  Each section shallowly embeds one part of
the source:

* `src/utils/circuit-breaker.ts`  — `CircuitBreaker`, `isConnectionError`
* `src/utils/retry.ts`            — `withRetry`, `calculateBackoff`
* `src/models/notam.ts`           — `NOTAMModel.create/findByFilters/count/deleteExpired`
  (the SQL statements are modelled by their documented PostgreSQL semantics
  over an in-memory list of rows)
* `src/services/notam-parser.ts`  — `parseAIXMMessage`, `extractNOTAMFromData`,
  `extractField`, `extractQLine`, `parseDate`, `parseTextNOTAM`
* `src/services/notam-ingestion.ts` — the per-message handler, specialised to
  the parse-failure path.

JavaScript semantics that matter are modelled explicitly: `||` returns its
first *truthy* operand (empty strings and 0 are falsy), property access on a
non-object yields `undefined`, and `Date` values are always truthy.
-/
import Mathlib

namespace Notams

/-! ## Circuit breaker (`src/utils/circuit-breaker.ts`) -/

/-- `CircuitBreakerState` from circuit-breaker.ts: failure counter,
timestamp (ms) of the last qualifying failure, open flag. -/
structure CBState where
  failures : Nat
  lastFailure : Option Int
  isOpen : Bool
deriving DecidableEq, Repr

/-- The initial state set in the constructor. -/
def CBState.initial : CBState := ⟨0, none, false⟩

/-- A JavaScript error value as seen by the classifiers: either not an
object at all, or an object with an optional `message` string. -/
inductive JSErr where
  | nonObject : JSErr
  | obj : Option String → JSErr
deriving DecidableEq, Repr

/-- Character-list prefix test. -/
def isPrefixL : List Char → List Char → Bool
  | [], _ => true
  | _ :: _, [] => false
  | a :: as, b :: bs => a == b && isPrefixL as bs

/-- Does `nd` occur as a contiguous run inside `hay`? -/
def containsSeq (nd : List Char) : List Char → Bool
  | [] => isPrefixL nd []
  | c :: rest => isPrefixL nd (c :: rest) || containsSeq nd rest

/-- JavaScript `msg.includes(sub)`. -/
def jsIncludes (msg sub : String) : Bool :=
  containsSeq sub.toList msg.toList

/-- The default connection-error detector `isConnectionError`
(circuit-breaker.ts lines 19–34). -/
def isConnectionError (e : JSErr) : Bool :=
  let connectionErrorMessages :=
    ["Connection terminated unexpectedly", "connection timeout",
     "ECONNRESET", "ETIMEDOUT", "ECONNREFUSED"]
  match e with
  | .nonObject => false
  | .obj none => false
  | .obj (some m) => connectionErrorMessages.any (fun s => jsIncludes m s)

/-- `CircuitBreaker.recordFailure` (lines 90–101): a non-qualifying error
returns immediately; a qualifying one increments the counter, stamps the
time, and opens the breaker once `failures >= threshold`.  `classify` is
the pluggable `isConnectionError` option. -/
def recordFailure (classify : JSErr → Bool) (threshold : Nat)
    (st : CBState) (e : JSErr) (now : Int) : CBState :=
  if classify e = false then st
  else
    let st' : CBState := ⟨st.failures + 1, some now, st.isOpen⟩
    if st'.failures ≥ threshold then { st' with isOpen := true } else st'

/-- `CircuitBreaker.recordSuccess` (lines 80–85): zero the failure counter
(the guard `failures > 0` only avoids a log line; the resulting state is
the same). -/
def recordSuccess (st : CBState) : CBState :=
  if st.failures > 0 then { st with failures := 0 } else st

/-- `CircuitBreaker.reset` (lines 124–127). -/
def cbReset (st : CBState) : CBState :=
  { st with isOpen := false, failures := 0 }

/-- `CircuitBreaker.isRequestAllowed` (lines 60–75), returning the boolean
together with the (possibly reset) state.  `now - (lastFailure ?? 0)` is
compared against the timeout. -/
def isRequestAllowed (timeout : Int) (st : CBState) (now : Int) :
    Bool × CBState :=
  if st.isOpen = false then (true, st)
  else
    let timeSinceLastFailure := now - (match st.lastFailure with
      | some t => t
      | none => 0)
    if timeSinceLastFailure > timeout then (true, cbReset st)
    else (false, st)

/-- Folding `recordFailure` over a list of (error, timestamp) events. -/
def recordFailures (classify : JSErr → Bool) (threshold : Nat)
    (st : CBState) (events : List (JSErr × Int)) : CBState :=
  events.foldl (fun s ev => recordFailure classify threshold s ev.1 ev.2) st

/-- Invariant: folding qualifying failures adds their number to the counter
and the open flag tracks `threshold ≤ failures`. -/
theorem recordFailures_qualifying (classify : JSErr → Bool) (threshold : Nat)
    (events : List (JSErr × Int)) (hq : ∀ ev ∈ events, classify ev.1 = true)
    (st : CBState) (ho : st.isOpen = decide (threshold ≤ st.failures)) :
    (recordFailures classify threshold st events).failures = st.failures + events.length ∧
      (recordFailures classify threshold st events).isOpen
        = decide (threshold ≤ st.failures + events.length) := by
  induction events generalizing st with
  | nil => simpa [recordFailures] using ho
  | cons ev rest ih =>
    have hqe : classify ev.1 = true := hq ev (List.mem_cons_self ev rest)
    have hqr : ∀ e ∈ rest, classify e.1 = true :=
      fun e he => hq e (List.mem_cons_of_mem ev he)
    have hstep : recordFailure classify threshold st ev.1 ev.2
        = ⟨st.failures + 1, some ev.2, decide (threshold ≤ st.failures + 1)⟩ := by
      by_cases hth : threshold ≤ st.failures + 1
      · simp [recordFailure, hqe, hth]
      · have : st.isOpen = false := by
          rw [ho]; simp; omega
        simp [recordFailure, hqe, hth, this]
    simp only [recordFailures, List.foldl_cons]
    rw [hstep]
    have := ih hqr ⟨st.failures + 1, some ev.2, decide (threshold ≤ st.failures + 1)⟩ rfl
    simp only [recordFailures] at this ⊢
    obtain ⟨h1, h2⟩ := this
    refine ⟨?_, ?_⟩
    · rw [h1]; simp [List.length_cons]; omega
    · rw [h2]; congr 1; simp [List.length_cons]; omega

/-- Non-qualifying failures are ignored entirely by `recordFailure`. -/
theorem recordFailures_nonqualifying (classify : JSErr → Bool) (threshold : Nat)
    (events : List (JSErr × Int)) (hn : ∀ ev ∈ events, classify ev.1 = false)
    (st : CBState) : recordFailures classify threshold st events = st := by
  induction events generalizing st with
  | nil => rfl
  | cons ev rest ih =>
    have hne : classify ev.1 = false := hn ev (List.mem_cons_self ev rest)
    simp only [recordFailures, List.foldl_cons]
    rw [show recordFailure classify threshold st ev.1 ev.2 = st by
      simp [recordFailure, hne]]
    exact ih (fun e he => hn e (List.mem_cons_of_mem ev he)) st

/-- C4: Starting from a closed breaker with zero failures, recording exactly
`threshold` qualifying failures transitions the breaker to OPEN; recording
only `threshold − 1` qualifying failures leaves it CLOSED; and recording any
number of non-qualifying failures changes neither the failure counter nor
the open flag (the state is untouched). -/
theorem circuitBreaker_threshold_transition (classify : JSErr → Bool)
    (threshold : Nat) (hth : 0 < threshold)
    (evA evB evC : List (JSErr × Int))
    (hqA : ∀ ev ∈ evA, classify ev.1 = true) (hlA : evA.length = threshold)
    (hqB : ∀ ev ∈ evB, classify ev.1 = true) (hlB : evB.length = threshold - 1)
    (hnC : ∀ ev ∈ evC, classify ev.1 = false) :
    (recordFailures classify threshold CBState.initial evA).isOpen = true ∧
      (recordFailures classify threshold CBState.initial evB).isOpen = false ∧
      ∀ st : CBState, recordFailures classify threshold st evC = st := by
  have hinit : CBState.initial.isOpen = decide (threshold ≤ CBState.initial.failures) := by
    simp [CBState.initial]; omega
  refine ⟨?_, ?_, fun st => recordFailures_nonqualifying classify threshold evC hnC st⟩
  · have := (recordFailures_qualifying classify threshold evA hqA CBState.initial hinit).2
    rw [this, hlA]
    simp [CBState.initial]
  · have := (recordFailures_qualifying classify threshold evB hqB CBState.initial hinit).2
    rw [this, hlB]
    simp [CBState.initial]
    omega

/-- Witness for C4 at `threshold = 2` with the default classifier: two
`ECONNRESET`-class failures open the breaker, one leaves it closed, and a
constraint-violation error leaves any state untouched. -/
theorem circuitBreaker_threshold_transition_witness :
    (recordFailures isConnectionError 2 CBState.initial
        [(.obj (some "ECONNRESET"), 0), (.obj (some "ETIMEDOUT"), 1)]).isOpen = true ∧
      (recordFailures isConnectionError 2 CBState.initial
        [(.obj (some "ECONNRESET"), 0)]).isOpen = false ∧
      ∀ st : CBState, recordFailures isConnectionError 2 st
        [(.obj (some "duplicate key value violates unique constraint"), 7)] = st :=
  circuitBreaker_threshold_transition isConnectionError 2 (by decide)
    [(.obj (some "ECONNRESET"), 0), (.obj (some "ETIMEDOUT"), 1)]
    [(.obj (some "ECONNRESET"), 0)]
    [(.obj (some "duplicate key value violates unique constraint"), 7)]
    (by decide) (by decide) (by decide) (by decide) (by decide)

/-- C5: While the breaker is OPEN, `isRequestAllowed` returns `false` while
the elapsed time since the last qualifying failure is within the timeout,
and once the elapsed time exceeds the timeout it resets the breaker to
CLOSED with the counter zeroed and returns `true`.  `recordSuccess` zeroes
the counter but never closes an OPEN breaker, and `recordFailure` never
closes it either: the timeout reset is the only transition to CLOSED. -/
theorem circuitBreaker_open_reset_only_via_timeout (timeout : Int)
    (st : CBState) (t : Int) (hopen : st.isOpen = true)
    (hlf : st.lastFailure = some t) :
    (∀ now : Int, now - t ≤ timeout → isRequestAllowed timeout st now = (false, st)) ∧
      (∀ now : Int, now - t > timeout →
        isRequestAllowed timeout st now = (true, ⟨0, some t, false⟩)) ∧
      recordSuccess st = { st with failures := 0 } ∧
      (recordSuccess st).isOpen = true ∧
      (∀ (classify : JSErr → Bool) (threshold : Nat) (e : JSErr) (now' : Int),
        (recordFailure classify threshold st e now').isOpen = true) := by
  obtain ⟨f, lf, o⟩ := st
  simp only at hopen hlf
  subst hopen
  subst hlf
  refine ⟨?_, ?_, ?_, ?_, ?_⟩
  · intro now hle
    simp only [isRequestAllowed]
    rw [if_neg (by simp), if_neg (by omega)]
  · intro now hgt
    simp only [isRequestAllowed]
    rw [if_neg (by simp), if_pos (by omega)]
    rfl
  · by_cases h : f > 0
    · simp [recordSuccess, h]
    · have : f = 0 := by omega
      subst this
      simp [recordSuccess]
  · by_cases h : f > 0 <;> simp [recordSuccess, h]
  · intro classify threshold e now'
    by_cases hc : classify e = false
    · simp [recordFailure, hc]
    · by_cases hth : f + 1 ≥ threshold <;> simp [recordFailure, hc, hth]

/-- Witness for C5 at a concrete OPEN state (3 failures at time 0,
timeout 10): denied at `now = 10`, reset and admitted at `now = 11`. -/
theorem circuitBreaker_open_reset_witness :
    isRequestAllowed 10 ⟨3, some 0, true⟩ 10 = (false, ⟨3, some 0, true⟩) ∧
      isRequestAllowed 10 ⟨3, some 0, true⟩ 11 = (true, ⟨0, some 0, false⟩) ∧
      recordSuccess ⟨3, some 0, true⟩ = ⟨0, some 0, true⟩ :=
  ⟨(circuitBreaker_open_reset_only_via_timeout 10 ⟨3, some 0, true⟩ 0 rfl rfl).1
      10 (by decide),
    ((circuitBreaker_open_reset_only_via_timeout 10 ⟨3, some 0, true⟩ 0 rfl rfl).2.1)
      11 (by decide),
    (circuitBreaker_open_reset_only_via_timeout 10 ⟨3, some 0, true⟩ 0 rfl rfl).2.2.1⟩

/-! ## Retry with exponential backoff (`src/utils/retry.ts`) -/

/-- A database error as seen by `isRetriableDatabaseError`: either not an
object, or an object with optional `code` and `message` strings. -/
inductive DBErr where
  | nonObject : DBErr
  | obj : Option String → Option String → DBErr
deriving DecidableEq, Repr

/-- `isRetriableDatabaseError` (retry.ts lines 18–48). -/
def isRetriableDatabaseError (e : DBErr) : Bool :=
  let retriableCodes :=
    ["57P01", "57P02", "57P03", "08000", "08003", "08006", "08P01", "53300"]
  let retriableMessages :=
    ["Connection terminated unexpectedly", "connection timeout",
     "ECONNRESET", "ETIMEDOUT", "ECONNREFUSED",
     "Client has encountered a connection error"]
  match e with
  | .nonObject => false
  | .obj code message =>
    (match code with
      | some c => retriableCodes.contains c
      | none => false) ||
    retriableMessages.any (fun m => match message with
      | some s => jsIncludes s m
      | none => false)

/-- `calculateBackoff` (retry.ts lines 60–62): `min(base * 2^attempt, max)`. -/
def calculateBackoff (attempt base maxB : Nat) : Nat :=
  min (base * 2 ^ attempt) maxB

/-- The `for attempt in 0..maxRetries` loop of `withRetry` (retry.ts lines
80–105), structured by the number `rem = maxRetries - attempt` of remaining
attempts.  `op i` is the outcome of the `i`-th invocation of the operation.
Returns the final outcome, the number of invocations made, and the list of
backoff delays slept between attempts.  At `rem = 0` the attempt is the
last one and its error is re-raised regardless of retriability, matching
`if (!retriable || isLastAttempt) throw error`. -/
def retryLoop (op : Nat → Except ε α) (isRetriable : ε → Bool)
    (base maxB : Nat) : Nat → Nat → Except ε α × Nat × List Nat
  | attempt, 0 =>
    match op attempt with
    | .ok a => (.ok a, 1, [])
    | .error e => (.error e, 1, [])
  | attempt, rem + 1 =>
    match op attempt with
    | .ok a => (.ok a, 1, [])
    | .error e =>
      if isRetriable e then
        let d := calculateBackoff attempt base maxB
        let r := retryLoop op isRetriable base maxB (attempt + 1) rem
        (r.1, r.2.1 + 1, d :: r.2.2)
      else (.error e, 1, [])

/-- `withRetry` (retry.ts lines 67–109). -/
def withRetry (op : Nat → Except ε α) (isRetriable : ε → Bool)
    (maxRetries base maxB : Nat) : Except ε α × Nat × List Nat :=
  retryLoop op isRetriable base maxB 0 maxRetries

/-- Re-indexing helper for the backoff-delay list. -/
theorem cons_map_range (f : Nat → Nat) (attempt rem : Nat) :
    f attempt :: (List.range rem).map (fun j => f (attempt + 1 + j))
      = (List.range (rem + 1)).map (fun j => f (attempt + j)) := by
  have hidx : ∀ j : Nat, attempt + 1 + j = attempt + (j + 1) := fun j => by omega
  rw [List.range_succ_eq_map, List.map_cons, List.map_map]
  refine congrArg₂ List.cons (by simp) ?_
  apply List.map_congr_left
  intro j _
  simp only [Function.comp_apply]
  rw [hidx j]

/-- Helper: if every attempt from `attempt` through `attempt + rem` fails
retriably, the loop performs them all, re-raises the last error, and sleeps
the backoff of each non-final attempt. -/
theorem retryLoop_all_fail (op : Nat → Except ε α) (retr : ε → Bool)
    (base maxB : Nat) (errs : Nat → ε) (rem : Nat) :
    ∀ attempt, (∀ i, attempt ≤ i → i ≤ attempt + rem →
        op i = .error (errs i) ∧ retr (errs i) = true) →
      retryLoop op retr base maxB attempt rem
        = (.error (errs (attempt + rem)), rem + 1,
            (List.range rem).map (fun j => calculateBackoff (attempt + j) base maxB)) := by
  induction rem with
  | zero =>
    intro attempt h
    have := h attempt le_rfl (by omega)
    simp [retryLoop, this.1]
  | succ rem ih =>
    intro attempt h
    have hfst := h attempt le_rfl (by omega)
    have hrest := ih (attempt + 1) (fun i h1 h2 => h i (by omega) (by omega))
    simp only [retryLoop, hfst.1, hfst.2]
    rw [if_pos trivial]
    rw [hrest]
    refine Prod.ext ?_ (Prod.ext rfl ?_)
    · simp only
      congr 2
      omega
    · exact cons_map_range (fun i => calculateBackoff i base maxB) attempt rem

/-- C6: `withRetry` invokes the operation exactly once with no delay when
the first attempt succeeds; when every attempt fails retriably it makes
exactly `maxRetries + 1` invocations, re-raises the (unchanged) error of
the exhausted final attempt, and the delay slept after attempt `i` is
`min(base * 2^i, cap)`; a non-retriable failure of the first attempt is
re-raised immediately after exactly one invocation with no delay. -/
theorem withRetry_attempt_counts (op : Nat → Except ε α) (retr : ε → Bool)
    (maxRetries base cap : Nat) :
    (∀ a, op 0 = .ok a →
        withRetry op retr maxRetries base cap = (.ok a, 1, [])) ∧
      (∀ errs : Nat → ε,
        (∀ i, i ≤ maxRetries → op i = .error (errs i) ∧ retr (errs i) = true) →
        withRetry op retr maxRetries base cap
          = (.error (errs maxRetries), maxRetries + 1,
              (List.range maxRetries).map (fun i => calculateBackoff i base cap))) ∧
      (∀ e, op 0 = .error e → retr e = false →
        withRetry op retr maxRetries base cap = (.error e, 1, [])) := by
  refine ⟨?_, ?_, ?_⟩
  · intro a h
    cases maxRetries <;> simp [withRetry, retryLoop, h]
  · intro errs h
    have := retryLoop_all_fail op retr base cap errs maxRetries 0
      (fun i h1 h2 => h i (by omega))
    rw [withRetry, this]
    simp
  · intro e he hr
    cases maxRetries with
    | zero => simp [withRetry, retryLoop, he]
    | succ n => simp [withRetry, retryLoop, he, hr]

/-- Witness for C6: a persistent retriable `ECONNRESET` failure with
`maxRetries = 2`, `base = 100`, `cap = 150` makes 3 invocations with
delays `[100, 150]` (the second capped); an immediate success and an
immediate non-retriable failure each make exactly one invocation. -/
theorem withRetry_attempt_counts_witness :
    withRetry (fun _ => (.error (DBErr.obj none (some "ECONNRESET")) : Except DBErr Nat))
        isRetriableDatabaseError 2 100 150
      = (.error (DBErr.obj none (some "ECONNRESET")), 3, [100, 150]) ∧
      withRetry (fun _ => (.ok 42 : Except DBErr Nat))
          isRetriableDatabaseError 2 100 150 = (.ok 42, 1, []) ∧
      withRetry (fun _ => (.error (DBErr.obj (some "23505") (some "duplicate key"))
            : Except DBErr Nat)) isRetriableDatabaseError 2 100 150
        = (.error (DBErr.obj (some "23505") (some "duplicate key")), 1, []) := by
  refine ⟨?_, ?_, ?_⟩
  · have h := (withRetry_attempt_counts
        (fun _ => (.error (DBErr.obj none (some "ECONNRESET")) : Except DBErr Nat))
        isRetriableDatabaseError 2 100 150).2.1
        (fun _ => DBErr.obj none (some "ECONNRESET"))
        (fun i _ => ⟨rfl, rfl⟩)
    rw [h]
    rfl
  · exact (withRetry_attempt_counts (fun _ => (.ok 42 : Except DBErr Nat))
      isRetriableDatabaseError 2 100 150).1 42 rfl
  · exact (withRetry_attempt_counts
      (fun _ => (.error (DBErr.obj (some "23505") (some "duplicate key"))
        : Except DBErr Nat)) isRetriableDatabaseError 2 100 150).2.2
      (DBErr.obj (some "23505") (some "duplicate key")) rfl (by decide)

/-! ## Record store (`src/models/notam.ts`)

The SQL statements are modelled by their PostgreSQL semantics over an
in-memory list of rows; timestamps are integers (ms since epoch), `SERIAL`
ids are fresh naturals. -/

/-- A row of the `notams` table. -/
structure DBRow where
  rowId : Nat
  notam_id : String
  icao_location : String
  effective_start : Int
  effective_end : Option Int
  schedule : Option String
  notam_text : String
  q_line : Option String
  purpose : Option String
  scope : Option String
  traffic_type : Option String
  raw_message : Option String
  created_at : Int
  updated_at : Int
deriving DecidableEq, Repr

/-- `NOTAMQueryFilters`.  A JS `if (filters.x)` guard skips the predicate
when the field is `undefined` (and, for strings, when it is empty). -/
structure QueryFilters where
  location : Option String
  start : Option Int
  end_ : Option Int
  purpose : Option String
  scope : Option String
  limit : Option Nat
  offset : Option Nat
deriving DecidableEq, Repr

/-- `icao_location = $loc` — active when `filters.location` is truthy. -/
def locationCond (f : QueryFilters) (r : DBRow) : Bool :=
  match f.location with
  | some l => if l = "" then true else decide (r.icao_location = l)
  | none => true

/-- `(effective_end IS NULL OR effective_end >= $start)` — active when
`filters.start` is set (a `Date` is always truthy). -/
def startCond (f : QueryFilters) (r : DBRow) : Bool :=
  match f.start with
  | some s =>
    match r.effective_end with
    | none => true
    | some e => decide (s ≤ e)
  | none => true

/-- `effective_start <= $end` — active when `filters.end` is set. -/
def endCond (f : QueryFilters) (r : DBRow) : Bool :=
  match f.end_ with
  | some e => decide (r.effective_start ≤ e)
  | none => true

/-- `purpose = $p` (SQL `NULL = x` is never true). -/
def purposeCond (f : QueryFilters) (r : DBRow) : Bool :=
  match f.purpose with
  | some p => if p = "" then true else decide (r.purpose = some p)
  | none => true

/-- `scope = $s`. -/
def scopeCond (f : QueryFilters) (r : DBRow) : Bool :=
  match f.scope with
  | some s => if s = "" then true else decide (r.scope = some s)
  | none => true

/-- The WHERE clause built by `findByFilters` (notam.ts lines 123–151):
location, temporal overlap, purpose and scope predicates, ANDed. -/
def rowMatchesQuery (f : QueryFilters) (r : DBRow) : Bool :=
  locationCond f r && startCond f r && endCond f r &&
    purposeCond f r && scopeCond f r

/-- The WHERE clause built by `count` (notam.ts lines 207–245): only the
location, start and end predicates are added. -/
def rowMatchesCount (f : QueryFilters) (r : DBRow) : Bool :=
  locationCond f r && startCond f r && endCond f r

/-- `findByFilters`: filter, `ORDER BY effective_start DESC`,
`LIMIT filters.limit || 100` and `OFFSET filters.offset || 0`. -/
def findByFilters (t : List DBRow) (f : QueryFilters) : List DBRow :=
  let matched := t.filter (rowMatchesQuery f)
  let sorted := matched.mergeSort (fun a b => decide (b.effective_start ≤ a.effective_start))
  let limit := match f.limit with
    | some n => if n = 0 then 100 else n
    | none => 100
  let offset := (f.offset).getD 0
  (sorted.drop offset).take limit

/-- `count(filters?)`: `SELECT COUNT(*)` under `rowMatchesCount`; the
`filters` argument is optional. -/
def notamCount (t : List DBRow) (f : Option QueryFilters) : Nat :=
  match f with
  | none => t.length
  | some f => (t.filter (rowMatchesCount f)).length

/-- The 11 column values passed to the upsert (`NOTAMModel.create`). -/
structure NOTAMIn where
  notam_id : String
  icao_location : String
  effective_start : Int
  effective_end : Option Int
  schedule : Option String
  notam_text : String
  q_line : Option String
  purpose : Option String
  scope : Option String
  traffic_type : Option String
  raw_message : Option String
deriving DecidableEq, Repr

/-- `DO UPDATE SET ...`: overwrite every mutable column from `EXCLUDED`,
refresh `updated_at`, keep `id`, `notam_id` and `created_at`. -/
def DBRow.overwrite (r : DBRow) (n : NOTAMIn) (now : Int) : DBRow :=
  { r with
    icao_location := n.icao_location
    effective_start := n.effective_start
    effective_end := n.effective_end
    schedule := n.schedule
    notam_text := n.notam_text
    q_line := n.q_line
    purpose := n.purpose
    scope := n.scope
    traffic_type := n.traffic_type
    raw_message := n.raw_message
    updated_at := now }

/-- A fresh `SERIAL` id: larger than every id in the table. -/
def freshId (t : List DBRow) : Nat :=
  (t.map DBRow.rowId).foldr max 0 + 1

/-- A newly inserted row. -/
def insertRow (n : NOTAMIn) (id : Nat) (now : Int) : DBRow :=
  ⟨id, n.notam_id, n.icao_location, n.effective_start, n.effective_end,
    n.schedule, n.notam_text, n.q_line, n.purpose, n.scope, n.traffic_type,
    n.raw_message, now, now⟩

/-- `NOTAMModel.create` (notam.ts lines 43–103):
`INSERT ... ON CONFLICT (notam_id) DO UPDATE SET ... RETURNING *, (xmax = 0) AS inserted`.
Returns the table, the returned row, and the `inserted` flag. -/
def create (t : List DBRow) (n : NOTAMIn) (now : Int) :
    List DBRow × DBRow × Bool :=
  match t.find? (fun r => decide (r.notam_id = n.notam_id)) with
  | some old =>
    let updated := old.overwrite n now
    (t.map (fun r => if decide (r.notam_id = n.notam_id) then updated else r),
      updated, false)
  | none =>
    let row := insertRow n (freshId t) now
    (t ++ [row], row, true)

/-- Milliseconds per day, for `INTERVAL '1 day' * $1`. -/
def msPerDay : Int := 86400000

/-- `effective_end IS NOT NULL AND effective_end < NOW() - INTERVAL '1 day' * days`. -/
def isExpiredRow (cutoff : Int) (r : DBRow) : Bool :=
  match r.effective_end with
  | some e => decide (e < cutoff)
  | none => false

/-- Row-by-row `DELETE`, returning kept rows and the deleted count. -/
def deleteGo (cutoff : Int) : List DBRow → List DBRow × Nat
  | [] => ([], 0)
  | r :: rest =>
    let res := deleteGo cutoff rest
    if isExpiredRow cutoff r then (res.1, res.2 + 1) else (r :: res.1, res.2)

/-- `NOTAMModel.deleteExpired` (notam.ts lines 183–205). -/
def deleteExpired (t : List DBRow) (olderThanDays : Nat) (now : Int) :
    List DBRow × Nat :=
  deleteGo (now - msPerDay * olderThanDays) t

/-- The row-by-row delete keeps exactly the non-expired rows and counts the
expired ones. -/
theorem deleteGo_spec (cutoff : Int) (t : List DBRow) :
    deleteGo cutoff t
      = (t.filter (fun r => !isExpiredRow cutoff r),
          (t.filter (isExpiredRow cutoff)).length) := by
  induction t with
  | nil => rfl
  | cons r rest ih =>
    by_cases h : isExpiredRow cutoff r
    · simp [deleteGo, ih, h]
    · simp [deleteGo, ih, h]

/-- C8: `deleteExpired(retentionDays)` removes exactly the rows whose
`effective_end` is non-null and earlier than `now - retentionDays` days;
rows with a null `effective_end` are always retained; the returned integer
is the number of rows actually removed. -/
theorem deleteExpired_retention (t : List DBRow) (days : Nat) (now : Int) :
    (deleteExpired t days now).2 + (deleteExpired t days now).1.length = t.length ∧
      (∀ r ∈ t, r.effective_end = none → r ∈ (deleteExpired t days now).1) ∧
      (∀ r ∈ t, ∀ e : Int, r.effective_end = some e →
        e < now - msPerDay * days → r ∉ (deleteExpired t days now).1) ∧
      (∀ r ∈ t, ∀ e : Int, r.effective_end = some e →
        now - msPerDay * days ≤ e → r ∈ (deleteExpired t days now).1) ∧
      (∀ r ∈ (deleteExpired t days now).1, r ∈ t) := by
  have hspec := deleteGo_spec (now - msPerDay * days) t
  unfold deleteExpired
  rw [hspec]
  refine ⟨?_, ?_, ?_, ?_, ?_⟩
  · exact (List.length_eq_length_filter_add (isExpiredRow (now - msPerDay * days))).symm
  · intro r hr hee
    refine List.mem_filter.mpr ⟨hr, ?_⟩
    simp [isExpiredRow, hee]
  · intro r hr e hee hlt hmem
    have := (List.mem_filter.mp hmem).2
    simp [isExpiredRow, hee] at this
    omega
  · intro r hr e hee hge
    refine List.mem_filter.mpr ⟨hr, ?_⟩
    simp [isExpiredRow, hee]
    omega
  · intro r hr
    exact (List.mem_filter.mp hr).1

/-- A permanent row (null `effective_end`). -/
def rowPerm : DBRow :=
  ⟨1, "A1/23", "KJFK", 0, none, none, "X", none, none, none, none, none, 0, 0⟩

/-- A row expired well before the cutoff. -/
def rowOld : DBRow :=
  ⟨2, "A2/23", "KLAX", 0, some 0, none, "Y", none, none, none, none, none, 0, 0⟩

/-- A row ending after the cutoff. -/
def rowNew : DBRow :=
  ⟨3, "A3/23", "KSFO", 0, some 172800000, none, "Z", none, none, none, none, none, 0, 0⟩

/-- Witness for C8: pruning `[rowPerm, rowOld, rowNew]` with 1-day
retention at `now = 2 days` removes only `rowOld` and returns 1. -/
theorem deleteExpired_retention_witness :
    rowPerm ∈ (deleteExpired [rowPerm, rowOld, rowNew] 1 172800000).1 ∧
      rowOld ∉ (deleteExpired [rowPerm, rowOld, rowNew] 1 172800000).1 ∧
      rowNew ∈ (deleteExpired [rowPerm, rowOld, rowNew] 1 172800000).1 ∧
      (deleteExpired [rowPerm, rowOld, rowNew] 1 172800000).2 = 1 := by
  have h := deleteExpired_retention [rowPerm, rowOld, rowNew] 1 172800000
  refine ⟨?_, ?_, ?_, ?_⟩
  · exact h.2.1 rowPerm (by simp) rfl
  · exact h.2.2.1 rowOld (by simp) 0 rfl (by decide)
  · exact h.2.2.2.1 rowNew (by simp) 172800000 rfl (by decide)
  · have h1 := h.1
    have h2 : (deleteExpired [rowPerm, rowOld, rowNew] 1 172800000).1.length = 2 := by
      rw [deleteExpired, deleteGo_spec]
      decide
    have hlen : ([rowPerm, rowOld, rowNew] : List DBRow).length = 3 := rfl
    rw [h2, hlen] at h1
    omega

/-- A stored row whose `purpose` is `N`. -/
def rowPurposeN : DBRow :=
  ⟨1, "A1/23", "KJFK", 0, none, none, "X", none, some "N", none, none, none, 0, 0⟩

/-- Filters selecting `purpose = B` only. -/
def filtersPurposeB : QueryFilters :=
  ⟨none, none, none, some "B", none, none, none⟩

/-- C1 is violated by the code: `count` builds only the location/start/end
predicates, dropping the purpose and scope predicates that
`findByFilters` applies; with a `purpose` filter, `count` reports a row
the query predicate rejects. -/
theorem count_ignores_purpose_and_scope :
    notamCount [rowPurposeN] (some filtersPurposeB) = 1 ∧
      ([rowPurposeN].filter (rowMatchesQuery filtersPurposeB)).length = 0 ∧
      rowMatchesCount filtersPurposeB rowPurposeN = true ∧
      rowMatchesQuery filtersPurposeB rowPurposeN = false := by
  refine ⟨?_, ?_, ?_, ?_⟩ <;> decide

/-! ### Upsert lemmas -/

/-- `find?` on a cons whose head passes. -/
theorem find?_cons_true {α : Type} (p : α → Bool) (a : α) (l : List α)
    (h : p a = true) : (a :: l).find? p = some a := by
  simp only [List.find?]
  rw [h]

/-- `find?` on a cons whose head fails. -/
theorem find?_cons_false {α : Type} (p : α → Bool) (a : α) (l : List α)
    (h : p a = false) : (a :: l).find? p = l.find? p := by
  simp only [List.find?]
  rw [h]

/-- `filter` on a cons whose head passes. -/
theorem filter_cons_true {α : Type} (p : α → Bool) (a : α) (l : List α)
    (h : p a = true) : (a :: l).filter p = a :: l.filter p := by
  simp only [List.filter]
  rw [h]

/-- `filter` on a cons whose head fails. -/
theorem filter_cons_false {α : Type} (p : α → Bool) (a : α) (l : List α)
    (h : p a = false) : (a :: l).filter p = l.filter p := by
  simp only [List.filter]
  rw [h]

/-- Replacing every `p`-row by a `p`-row `u` commutes with `find? p`. -/
theorem find?_map_replace {α : Type} (p : α → Bool) (u : α) (hu : p u = true)
    (t : List α) :
    (t.map (fun r => if p r then u else r)).find? p
      = (t.find? p).map (fun _ => u) := by
  induction t with
  | nil => rfl
  | cons r rest ih =>
    by_cases h : p r = true
    · simp only [List.map_cons, if_pos h]
      rw [find?_cons_true p u _ hu, find?_cons_true p r _ h]
      rfl
    · have hf : p r = false := eq_false_of_ne_true h
      simp only [List.map_cons, if_neg h]
      rw [find?_cons_false p r _ hf, find?_cons_false p r _ hf]
      exact ih

/-- Replacing every `p`-row by a `p`-row `u` commutes with `filter p`. -/
theorem filter_map_replace {α : Type} (p : α → Bool) (u : α) (hu : p u = true)
    (t : List α) :
    (t.map (fun r => if p r then u else r)).filter p
      = (t.filter p).map (fun _ => u) := by
  induction t with
  | nil => rfl
  | cons r rest ih =>
    by_cases h : p r = true
    · simp only [List.map_cons, if_pos h]
      rw [filter_cons_true p u _ hu, filter_cons_true p r _ h]
      simp only [List.map_cons]
      rw [ih]
    · have hf : p r = false := eq_false_of_ne_true h
      simp only [List.map_cons, if_neg h]
      rw [filter_cons_false p r _ hf, filter_cons_false p r _ hf]
      exact ih

/-- `find? p` past a `p`-free prefix. -/
theorem find?_append_of_none {α : Type} (p : α → Bool) (t l : List α)
    (h : t.find? p = none) : (t ++ l).find? p = l.find? p := by
  induction t with
  | nil => rfl
  | cons r rest ih =>
    by_cases hr : p r = true
    · rw [find?_cons_true p r rest hr] at h
      exact absurd h (by simp)
    · have hf : p r = false := eq_false_of_ne_true hr
      rw [find?_cons_false p r rest hf] at h
      rw [List.cons_append, find?_cons_false p r (rest ++ l) hf]
      exact ih h

/-- Under unique `notam_id`s, the row that `find?` locates is the only one
passing the key filter. -/
theorem filter_eq_single_of_find? (key : String) (t : List DBRow)
    (huniq : t.Pairwise (fun a b => a.notam_id ≠ b.notam_id)) (a : DBRow)
    (ha : t.find? (fun r => decide (r.notam_id = key)) = some a) :
    t.filter (fun r => decide (r.notam_id = key)) = [a] := by
  induction t with
  | nil => simp at ha
  | cons r rest ih =>
    by_cases hr : r.notam_id = key
    · have hpr : (fun x : DBRow => decide (x.notam_id = key)) r = true := by
        simpa using hr
      rw [find?_cons_true (fun x : DBRow => decide (x.notam_id = key)) r rest hpr]
        at ha
      obtain rfl : r = a := by simpa using ha
      have hrest : rest.filter (fun x => decide (x.notam_id = key)) = [] := by
        apply List.filter_eq_nil_iff.mpr
        intro b hb
        have hne := (List.pairwise_cons.mp huniq).1 b hb
        simp only [decide_eq_true_eq]
        rw [← hr]
        exact fun hc => hne hc.symm
      rw [filter_cons_true (fun x : DBRow => decide (x.notam_id = key)) r rest hpr,
        hrest]
    · have hpr : (fun x : DBRow => decide (x.notam_id = key)) r = false := by
        simpa using hr
      rw [find?_cons_false (fun x : DBRow => decide (x.notam_id = key)) r rest hpr]
        at ha
      rw [filter_cons_false (fun x : DBRow => decide (x.notam_id = key)) r rest hpr]
      exact ih (List.pairwise_cons.mp huniq).2 ha

/-- `create` on a conflicting `notam_id` takes the `DO UPDATE` branch. -/
theorem create_of_find?_some (t : List DBRow) (n : NOTAMIn) (now : Int)
    (old : DBRow)
    (h : t.find? (fun r => decide (r.notam_id = n.notam_id)) = some old) :
    create t n now
      = (t.map (fun r =>
          if decide (r.notam_id = n.notam_id) then old.overwrite n now else r),
        old.overwrite n now, false) := by
  unfold create
  rw [h]

/-- `create` on a fresh `notam_id` takes the `INSERT` branch. -/
theorem create_of_find?_none (t : List DBRow) (n : NOTAMIn) (now : Int)
    (h : t.find? (fun r => decide (r.notam_id = n.notam_id)) = none) :
    create t n now
      = (t ++ [insertRow n (freshId t) now], insertRow n (freshId t) now, true) := by
  unfold create
  rw [h]

/-- C7: upsert is idempotent on the natural key: two `create` calls with
the same `notam_id` but different mutable fields return the same stored
row identity, leave exactly one row with that identifier in the table,
and that row carries exactly the second call's field values (full
overwrite, `updated_at` refreshed). -/
theorem upsert_idempotent_identifier (t : List DBRow)
    (huniq : t.Pairwise (fun a b => a.notam_id ≠ b.notam_id))
    (n1 n2 : NOTAMIn) (hid : n1.notam_id = n2.notam_id) (now1 now2 : Int) :
    ((create (create t n1 now1).1 n2 now2).2.1).rowId
        = ((create t n1 now1).2.1).rowId ∧
      ((create (create t n1 now1).1 n2 now2).1.filter
        (fun r => decide (r.notam_id = n2.notam_id))).length = 1 ∧
      ∀ r ∈ (create (create t n1 now1).1 n2 now2).1, r.notam_id = n2.notam_id →
        r.icao_location = n2.icao_location ∧ r.effective_start = n2.effective_start ∧
          r.effective_end = n2.effective_end ∧ r.schedule = n2.schedule ∧
          r.notam_text = n2.notam_text ∧ r.q_line = n2.q_line ∧
          r.purpose = n2.purpose ∧ r.scope = n2.scope ∧
          r.traffic_type = n2.traffic_type ∧ r.raw_message = n2.raw_message ∧
          r.updated_at = now2 := by
  obtain ⟨id2, loc2, es2, ee2, sch2, txt2, ql2, pu2, sc2, tt2, rm2⟩ := n2
  dsimp only at hid ⊢
  subst hid
  cases hfind : t.find? (fun r => decide (r.notam_id = n1.notam_id)) with
  | some old =>
    have hold : old.notam_id = n1.notam_id := by
      have h := List.find?_some hfind
      simpa using h
    have hc1 := create_of_find?_some t n1 now1 old hfind
    have hu1p : (fun r : DBRow => decide (r.notam_id = n1.notam_id))
        (old.overwrite n1 now1) = true := by
      simpa [DBRow.overwrite] using hold
    have hfind1 : (create t n1 now1).1.find?
        (fun r => decide (r.notam_id = n1.notam_id))
          = some (old.overwrite n1 now1) := by
      rw [hc1]
      dsimp only
      rw [find?_map_replace (fun r : DBRow => decide (r.notam_id = n1.notam_id))
        (old.overwrite n1 now1) hu1p t, hfind]
      rfl
    have hc2 := create_of_find?_some (create t n1 now1).1
      ⟨n1.notam_id, loc2, es2, ee2, sch2, txt2, ql2, pu2, sc2, tt2, rm2⟩ now2
      (old.overwrite n1 now1) hfind1
    have hu2p : (fun r : DBRow => decide (r.notam_id = n1.notam_id))
        ((old.overwrite n1 now1).overwrite
          ⟨n1.notam_id, loc2, es2, ee2, sch2, txt2, ql2, pu2, sc2, tt2, rm2⟩ now2)
          = true := by
      simpa [DBRow.overwrite] using hold
    refine ⟨?_, ?_, ?_⟩
    · rw [hc2, hc1]
      rfl
    · rw [hc2]
      dsimp only
      rw [filter_map_replace (fun r : DBRow => decide (r.notam_id = n1.notam_id))
        ((old.overwrite n1 now1).overwrite
          ⟨n1.notam_id, loc2, es2, ee2, sch2, txt2, ql2, pu2, sc2, tt2, rm2⟩ now2)
        hu2p (create t n1 now1).1]
      rw [hc1]
      dsimp only
      rw [filter_map_replace (fun r : DBRow => decide (r.notam_id = n1.notam_id))
        (old.overwrite n1 now1) hu1p t]
      rw [filter_eq_single_of_find? n1.notam_id t huniq old hfind]
      rfl
    · intro r hr hrkey
      rw [hc2] at hr
      dsimp only at hr hrkey
      rw [List.mem_map] at hr
      obtain ⟨r', _, hr'⟩ := hr
      by_cases hcase : r'.notam_id = n1.notam_id
      · rw [if_pos (by simpa using hcase)] at hr'
        subst hr'
        exact ⟨rfl, rfl, rfl, rfl, rfl, rfl, rfl, rfl, rfl, rfl, rfl⟩
      · rw [if_neg (by simpa using hcase)] at hr'
        subst hr'
        exact absurd hrkey hcase
  | none =>
    have hc1 := create_of_find?_none t n1 now1 hfind
    have hwp : (fun r : DBRow => decide (r.notam_id = n1.notam_id))
        (insertRow n1 (freshId t) now1) = true := by
      simp [insertRow]
    have hfind1 : (create t n1 now1).1.find?
        (fun r => decide (r.notam_id = n1.notam_id))
          = some (insertRow n1 (freshId t) now1) := by
      rw [hc1]
      dsimp only
      rw [find?_append_of_none (fun r : DBRow => decide (r.notam_id = n1.notam_id))
        t [insertRow n1 (freshId t) now1] hfind]
      rw [find?_cons_true (fun r : DBRow => decide (r.notam_id = n1.notam_id))
        (insertRow n1 (freshId t) now1) [] hwp]
    have hc2 := create_of_find?_some (create t n1 now1).1
      ⟨n1.notam_id, loc2, es2, ee2, sch2, txt2, ql2, pu2, sc2, tt2, rm2⟩ now2
      (insertRow n1 (freshId t) now1) hfind1
    have hu2p : (fun r : DBRow => decide (r.notam_id = n1.notam_id))
        ((insertRow n1 (freshId t) now1).overwrite
          ⟨n1.notam_id, loc2, es2, ee2, sch2, txt2, ql2, pu2, sc2, tt2, rm2⟩ now2)
          = true := by
      simp [insertRow, DBRow.overwrite]
    refine ⟨?_, ?_, ?_⟩
    · rw [hc2, hc1]
      rfl
    · rw [hc2]
      dsimp only
      rw [filter_map_replace (fun r : DBRow => decide (r.notam_id = n1.notam_id))
        ((insertRow n1 (freshId t) now1).overwrite
          ⟨n1.notam_id, loc2, es2, ee2, sch2, txt2, ql2, pu2, sc2, tt2, rm2⟩ now2)
        hu2p (create t n1 now1).1]
      rw [hc1]
      dsimp only
      rw [List.filter_append]
      rw [List.filter_eq_nil_iff.mpr (fun b hb => by
        have := List.find?_eq_none.mp hfind b hb
        simpa using this)]
      rw [filter_cons_true (fun r : DBRow => decide (r.notam_id = n1.notam_id))
        (insertRow n1 (freshId t) now1) [] hwp]
      rfl
    · intro r hr hrkey
      rw [hc2] at hr
      dsimp only at hr hrkey
      rw [List.mem_map] at hr
      obtain ⟨r', _, hr'⟩ := hr
      by_cases hcase : r'.notam_id = n1.notam_id
      · rw [if_pos (by simpa using hcase)] at hr'
        subst hr'
        exact ⟨rfl, rfl, rfl, rfl, rfl, rfl, rfl, rfl, rfl, rfl, rfl⟩
      · rw [if_neg (by simpa using hcase)] at hr'
        subst hr'
        exact absurd hrkey hcase


/-- First upsert input for the C7 witness. -/
def wn1 : NOTAMIn :=
  ⟨"A1/23", "KJFK", 0, none, none, "OLD TEXT", none, none, none, none, none⟩

/-- Second upsert input: same identifier, different mutable fields. -/
def wn2 : NOTAMIn :=
  ⟨"A1/23", "KLAX", 5, some 9, some "SKED", "NEW TEXT", none, some "N", none,
    some "IV", none⟩

/-- Witness for C7: upserting `wn1` then `wn2` into an empty table keeps a
single row for `A1/23`, with the same row id both times and `wn2`'s
values stored. -/
theorem upsert_idempotent_identifier_witness :
    ((create (create [] wn1 0).1 wn2 1).2.1).rowId
        = ((create [] wn1 0).2.1).rowId ∧
      ((create (create [] wn1 0).1 wn2 1).1.filter
        (fun r => decide (r.notam_id = wn2.notam_id))).length = 1 ∧
      ((create (create [] wn1 0).1 wn2 1).2.1).icao_location = wn2.icao_location := by
  have h := upsert_idempotent_identifier [] List.Pairwise.nil wn1 wn2 rfl 0 1
  exact ⟨h.1, h.2.1, (h.2.2 _ (by decide) (by decide)).1⟩

/-! ## Message parser (`src/services/notam-parser.ts`)

The tree produced by `fast-xml-parser` is modelled as `JVal` (strings,
numbers, key/value objects).  JavaScript `||` returns its first truthy
operand; property access on a non-object yields `undefined` (here `none`);
`Date` objects are modelled symbolically by `DateVal` (no calendar
arithmetic is re-implemented), and the host's ISO-8601 `new Date(string)`
parser is a parameter `jsDate` returning `none` for an invalid date. -/

/-- A parsed XML value. -/
inductive JVal where
  | str : String → JVal
  | num : Int → JVal
  | obj : List (String × JVal) → JVal

/-- JavaScript truthiness of a `JVal`. -/
def truthy : JVal → Bool
  | .str s => s ≠ ""
  | .num n => n ≠ 0
  | .obj _ => true

/-- Property access; `undefined` on primitives and missing keys. -/
def getProp : JVal → String → Option JVal
  | .obj kvs, k => kvs.lookup k
  | _, _ => none

/-- Truthiness of a possibly-undefined value. -/
def optTruthy : Option JVal → Bool
  | none => false
  | some v => truthy v

/-- JavaScript `a || b`: first truthy operand, else the second. -/
def jsOr (a b : Option JVal) : Option JVal :=
  if optTruthy a then a else b

/-- First truthy value of a `||` chain, `none` when every operand is falsy
or undefined (the shape consumed by the `if (!x) return null` guards). -/
def firstTruthy : List (Option JVal) → Option JVal
  | [] => none
  | a :: rest => if optTruthy a then a else firstTruthy rest

/-- JavaScript `String(v)`. -/
def jsToString : JVal → String
  | .str s => s
  | .num n => toString n
  | .obj _ => "[object Object]"

/-- Is the value an object (`typeof v === 'object'`)? -/
def isObjV : JVal → Bool
  | .obj _ => true
  | _ => false

/-- Split a character list at every occurrence of `sep` (JS
`s.split(sep)`). -/
def splitOnCharL (sep : Char) : List Char → List (List Char)
  | [] => [[]]
  | c :: rest =>
    match splitOnCharL sep rest with
    | [] => if c = sep then [[], []] else [[c]]
    | l :: ls => if c = sep then [] :: l :: ls else (c :: l) :: ls

/-- JS `s.split(sep)` on strings. -/
def jsSplitChar (s : String) (sep : Char) : List String :=
  (splitOnCharL sep s.toList).map (fun l => (⟨l⟩ : String))

/-- JS `s.trim()`. -/
def jsTrim (s : String) : String :=
  ⟨((s.toList.dropWhile Char.isWhitespace).reverse.dropWhile
      Char.isWhitespace).reverse⟩

/-- JS `s.startsWith(pre)`. -/
def jsStartsWithS (s pre : String) : Bool :=
  isPrefixL pre.toList s.toList

/-- JS `s.substring(n)` (drop the first `n` characters). -/
def jsDropS (s : String) (n : Nat) : String :=
  ⟨s.toList.drop n⟩

/-- JS `s.substring(0, n)` (keep the first `n` characters). -/
def jsTakeS (s : String) (n : Nat) : String :=
  ⟨s.toList.take n⟩

/-- JS `s.toUpperCase()` (ASCII as exercised here). -/
def jsToUpper (s : String) : String :=
  ⟨s.toList.map Char.toUpper⟩

/-- One candidate of `extractField` (notam-parser.ts lines 166–196): a
dotted path walks nested objects; a name with a namespace prefix is used
as-is; otherwise the name is tried bare and under the `aixm:`/`event:`
prefixes through `||`. -/
def extractFieldOne (data : JVal) (fieldName : String) : Option String :=
  if fieldName.toList.contains '.' then
    ((jsSplitChar fieldName '.').foldl
      (fun acc part => acc.bind (fun v => getProp v part)) (some data)).map jsToString
  else if fieldName.toList.contains ':' then
    (getProp data fieldName).map jsToString
  else
    (jsOr (jsOr (getProp data fieldName) (getProp data ("aixm:" ++ fieldName)))
      (getProp data ("event:" ++ fieldName))).map jsToString

/-- `extractField`: first candidate name that produces a value. -/
def extractField (data : JVal) : List String → Option String
  | [] => none
  | f :: rest =>
    match extractFieldOne data f with
    | some s => some s
    | none => extractField data rest

/-- A `Date` value as constructed by the parser: host-parsed ISO date,
`Date.UTC(year, month0, day, hour, minute)`, or `new Date()` (wall clock). -/
inductive DateVal where
  | iso : Int → DateVal
  | utc : Nat → Int → Nat → Nat → Nat → DateVal
  | now : Int → DateVal
deriving DecidableEq, Repr

/-- `parseInt` on an all-digit string. -/
def digitsToNat (cs : List Char) : Nat :=
  cs.foldl (fun a c => a * 10 + (c.toNat - '0'.toNat)) 0

/-- `NOTAMParser.parseDate` (notam-parser.ts lines 202–242): empty/absent
and `PERM`/`PERMANENT` yield null; then host ISO parsing; then the fixed
12-digit `YYYYMMDDhhmm` and 10-digit `YYMMDDhhmm` (century 2000) UTC
forms; anything else yields null. -/
def parseDate (jsDate : String → Option Int) (s : Option String) : Option DateVal :=
  match s with
  | none => none
  | some d =>
    if d = "" then none
    else if jsToUpper d = "PERM" ∨ jsToUpper d = "PERMANENT" then none
    else
      match jsDate d with
      | some ms => some (.iso ms)
      | none =>
        let cs := d.toList
        if cs.length = 12 ∧ cs.all Char.isDigit then
          some (.utc (digitsToNat (cs.take 4))
            ((digitsToNat ((cs.drop 4).take 2) : Int) - 1)
            (digitsToNat ((cs.drop 6).take 2))
            (digitsToNat ((cs.drop 8).take 2))
            (digitsToNat ((cs.drop 10).take 2)))
        else if cs.length = 10 ∧ cs.all Char.isDigit then
          some (.utc (2000 + digitsToNat (cs.take 2))
            ((digitsToNat ((cs.drop 2).take 2) : Int) - 1)
            (digitsToNat ((cs.drop 4).take 2))
            (digitsToNat ((cs.drop 6).take 2))
            (digitsToNat ((cs.drop 8).take 2)))
        else none

/-- The q-line sub-record. -/
structure QLineRec where
  purpose : Option String
  scope : Option String
  traffic_type : Option String
  lower_altitude : Option String
  upper_altitude : Option String
  coordinates : Option String
deriving DecidableEq, Repr

/-- The canonical parsed record (`NOTAM` interface, parser output). -/
structure NOTAMRec where
  notam_id : String
  icao_location : String
  effective_start : DateVal
  effective_end : Option DateVal
  schedule : Option String
  notam_text : String
  q_line : Option QLineRec
  purpose : Option String
  scope : Option String
  traffic_type : Option String
  raw_message : String
deriving DecidableEq, Repr

/-- `s || 'default'` on an optional string. -/
def strOr (o : Option String) (d : String) : String :=
  match o with
  | some s => if s = "" then d else s
  | none => d

/-- `s || null` on an optional string. -/
def strOrNull (o : Option String) : Option String :=
  match o with
  | some s => if s = "" then none else some s
  | none => none

/-- `extractQLine` (notam-parser.ts lines 143–161). -/
def extractQLine (data : JVal) : Option QLineRec :=
  match firstTruthy [getProp data "qLine", getProp data "QLine",
      getProp data "aixm:qLine"] with
  | some q =>
    if isObjV q then
      some ⟨extractField q ["purpose", "Purpose"],
        extractField q ["scope", "Scope"],
        extractField q ["trafficType", "TrafficType"],
        extractField q ["lowerAltitude", "LowerLimit"],
        extractField q ["upperAltitude", "UpperLimit"],
        extractField q ["coordinates", "Coordinates"]⟩
    else none
  | none => none

/-- The `gml:validTime → gml:TimePeriod → begin/endPosition` fallback
(notam-parser.ts lines 101–120), returning the truthy begin/end position
values when the nested sections are present objects. -/
def aixmTimeFallback (ets : JVal) : Option JVal × Option JVal :=
  match jsOr (getProp ets "gml:validTime") (getProp ets "validTime") with
  | some vt =>
    if isObjV vt then
      match jsOr (getProp vt "gml:TimePeriod") (getProp vt "TimePeriod") with
      | some tp =>
        if isObjV tp then
          ((match jsOr (getProp tp "gml:beginPosition") (getProp tp "beginPosition") with
            | some b => if truthy b then some b else none
            | none => none),
           (match jsOr (getProp tp "gml:endPosition") (getProp tp "endPosition") with
            | some e => if truthy e then some e else none
            | none => none))
        else (none, none)
      | none => (none, none)
    else (none, none)
  | none => (none, none)

/-- Effective start: direct fields first, then the valid-time fallback.
In the source the fallback block is guarded by
`!effectiveStart || !effectiveEnd` and the begin-position update by
`beginPos && !effectiveStart`; whenever the direct start is null the guard
holds, so this is the same value. -/
def extractStart (jsDate : String → Option Int) (data ets : JVal) : Option DateVal :=
  match parseDate jsDate
      (extractField data ["effectiveStart", "event:effectiveStart", "validityStart"]) with
  | some d => some d
  | none =>
    match (aixmTimeFallback ets).1 with
    | some b => parseDate jsDate (some (jsToString b))
    | none => none

/-- Effective end, symmetric to `extractStart`. -/
def extractEnd (jsDate : String → Option Int) (data ets : JVal) : Option DateVal :=
  match parseDate jsDate
      (extractField data ["effectiveEnd", "event:effectiveEnd", "validityEnd"]) with
  | some d => some d
  | none =>
    match (aixmTimeFallback ets).2 with
    | some e => parseDate jsDate (some (jsToString e))
    | none => none

/-- `extractNOTAMFromData` (notam-parser.ts lines 82–138): always returns a
record; missing identifier parts give `UNKNOWN`, a missing location gives
`ZZZZ`, a missing/unparseable start gives `new Date()`. -/
def extractNOTAMFromData (jsDate : String → Option Int) (nowT : Int)
    (data ets : JVal) (rawXml : String) : NOTAMRec :=
  let series := (extractField data ["series", "event:series"]).getD ""
  let number := (extractField data ["number", "event:number"]).getD ""
  let year := (extractField data ["year", "event:year"]).getD ""
  let notamId :=
    if series ≠ "" ∧ number ≠ "" ∧ year ≠ "" then series ++ number ++ "/" ++ year
    else "UNKNOWN"
  { notam_id := notamId
    icao_location :=
      strOr (extractField data ["location", "event:location", "icaoLocation"]) "ZZZZ"
    effective_start := (extractStart jsDate data ets).getD (.now nowT)
    effective_end := extractEnd jsDate data ets
    schedule := none
    notam_text := (extractField data ["text", "event:text", "notamText", "itemE"]).getD ""
    q_line := extractQLine data
    purpose := strOrNull (extractField data ["purpose", "event:purpose"])
    scope := strOrNull (extractField data ["scope", "event:scope"])
    traffic_type := strOrNull (extractField data ["traffic", "event:traffic"])
    raw_message := rawXml }

/-- The guarded navigation chain of `parseAIXMMessage` (lines 26–62):
message → member → event → time-slice → event-time-slice; each step is a
`||` chain over candidate keys and aborts when no candidate is truthy. -/
def navChain (parsed : JVal) : Option JVal :=
  match firstTruthy [getProp parsed "AIXMBasicMessage",
      getProp parsed "aixm:AIXMBasicMessage"] with
  | none => none
  | some message =>
    match firstTruthy [getProp message "hasMember", getProp message "aixm:hasMember"] with
    | none => none
    | some member =>
      match firstTruthy [getProp member "Event", getProp member "event:Event",
          getProp member "aixm:Event"] with
      | none => none
      | some event =>
        match firstTruthy [getProp event "timeSlice", getProp event "event:timeSlice",
            getProp event "aixm:timeSlice"] with
        | none => none
        | some timeSlice =>
          firstTruthy [getProp timeSlice "EventTimeSlice",
            getProp timeSlice "event:EventTimeSlice",
            getProp timeSlice "aixm:EventTimeSlice"]

/-- The unguarded notice-text resolution (lines 64–69):
`textNOTAM?.NOTAM || textNOTAM?.['event:NOTAM'] || ets.NOTAM ||
ets['event:NOTAM'] || ets` — `||` takes the first truthy link, with the
event-time-slice itself as final fallback. -/
def notamDataOf (ets : JVal) : JVal :=
  let textNOTAM := jsOr (getProp ets "textNOTAM") (getProp ets "event:textNOTAM")
  (firstTruthy [textNOTAM.bind (fun v => getProp v "NOTAM"),
    textNOTAM.bind (fun v => getProp v "event:NOTAM"),
    getProp ets "NOTAM", getProp ets "event:NOTAM"]).getD ets

/-- `parseAIXMMessage` over the parsed tree (lines 21–77): null when the
navigation chain aborts, otherwise the extracted record. -/
def parseAIXMMessage (jsDate : String → Option Int) (nowT : Int)
    (parsed : JVal) (rawXml : String) : Option NOTAMRec :=
  match navChain parsed with
  | none => none
  | some ets => some (extractNOTAMFromData jsDate nowT (notamDataOf ets) ets rawXml)

/-- `/^[A-Z]\d+\/\d+/.test(line)`: one ASCII capital, one-plus digits,
a slash, one-plus digits, anything after. -/
def matchesNotamIdPattern (s : String) : Bool :=
  match s.toList with
  | [] => false
  | c :: rest =>
    ('A' ≤ c && c ≤ 'Z') &&
      (let ds := rest.takeWhile Char.isDigit
       !ds.isEmpty &&
         match rest.drop ds.length with
         | '/' :: rest2 => !(rest2.takeWhile Char.isDigit).isEmpty
         | _ => false)

/-- `line.split(/\s+/)[0]` for a line starting with a non-space character. -/
def firstToken (s : String) : String :=
  ⟨s.toList.takeWhile (fun c => !c.isWhitespace)⟩

/-- The accumulator of the legacy text parser's line loop
(`Partial<NOTAM>`); `effective_end`'s outer `Option` is "was a `C)` line
seen", the inner one the parsed (possibly permanent = null) date. -/
structure TextState where
  notam_id : Option String
  icao_location : Option String
  effective_start : Option DateVal
  effective_end : Option (Option DateVal)
  schedule : Option String
  notam_text : String
deriving DecidableEq, Repr

/-- One iteration of the line loop (notam-parser.ts lines 259–284). -/
def processLine (jsDate : String → Option Int) (nowT : Int)
    (st : TextState) (line : String) : TextState :=
  if jsStartsWithS line "A)" then
    { st with icao_location := some (jsTakeS (jsTrim (jsDropS line 2)) 10) }
  else if jsStartsWithS line "B)" then
    { st with
      effective_start :=
        some ((parseDate jsDate (some (jsTrim (jsDropS line 2)))).getD (.now nowT)) }
  else if jsStartsWithS line "C)" then
    { st with effective_end := some (parseDate jsDate (some (jsTrim (jsDropS line 2)))) }
  else if jsStartsWithS line "D)" then
    { st with schedule := some (jsTrim (jsDropS line 2)) }
  else if jsStartsWithS line "E)" then
    { st with notam_text := jsTrim (jsDropS line 2) }
  else if st.notam_id.isNone && matchesNotamIdPattern line then
    { st with notam_id := some (firstToken line) }
  else st

/-- Split into trimmed non-empty lines (lines 249–252). -/
def textLines (text : String) : List String :=
  ((jsSplitChar text '\n').map (fun l => jsTrim l)).filter (fun l => l.length > 0)

/-- The state after the whole line loop. -/
def processLines (jsDate : String → Option Int) (nowT : Int)
    (text : String) : TextState :=
  (textLines text).foldl (processLine jsDate nowT)
    ⟨none, none, none, none, none, text⟩

/-- JS truthiness of an optional string field (`!notam.field`). -/
def strFieldTruthy : Option String → Bool
  | none => false
  | some s => s ≠ ""

/-- `parseTextNOTAM` (notam-parser.ts lines 247–298): process the lines,
then require truthy `notam_id`, truthy `icao_location` and a present
`effective_start`; otherwise null. -/
def parseTextNOTAM (jsDate : String → Option Int) (nowT : Int)
    (text : String) : Option NOTAMRec :=
  let st := processLines jsDate nowT text
  if strFieldTruthy st.notam_id && strFieldTruthy st.icao_location &&
      st.effective_start.isSome then
    some { notam_id := st.notam_id.getD ""
           icao_location := st.icao_location.getD ""
           effective_start := st.effective_start.getD (.now nowT)
           effective_end := st.effective_end.getD none
           schedule := st.schedule
           notam_text := st.notam_text
           q_line := none
           purpose := none
           scope := none
           traffic_type := none
           raw_message := text }
  else none

/-! ## Ingestion handler (`src/services/notam-ingestion.ts`) -/

/-- Outcome of the per-message handler: breaker state afterwards, and
whether the message was acknowledged. -/
structure HandleResult where
  breaker : CBState
  acked : Bool
deriving DecidableEq, Repr

/-- `handleMessage` (notam-ingestion.ts lines 225–311), specialised to a
message whose payload is extractable but parses to null: the admission
check runs first (leaving the message unacknowledged when denied);
`processMessage` returns normally on a null parse, so the handler records
a success and acknowledges. -/
def handleMessageParseFailure (timeout : Int) (cb : CBState) (now : Int) :
    HandleResult :=
  let res := isRequestAllowed timeout cb now
  if res.1 then ⟨recordSuccess res.2, true⟩ else ⟨res.2, false⟩

/-! ## Theorems about the parser and the handler -/

/-- A host whose ISO-8601 date parser accepts nothing (used to pin down
concrete evaluations independent of host `Date` behaviour). -/
def jsDateNone : String → Option Int := fun _ => none

/-- C3 (amended): on the structured path, parse returns null exactly when
one of the five guarded sections (message, member, event, time-slice,
event-time-slice) is absent — falsy or missing — under all of its
candidate key names; the notice-text section is not guarded: when the
chain resolves, a record is always produced. -/
theorem parseAIXM_null_iff_navChain_none (jsDate : String → Option Int)
    (nowT : Int) (p : JVal) (raw : String) :
    parseAIXMMessage jsDate nowT p raw = none ↔ navChain p = none := by
  unfold parseAIXMMessage
  cases navChain p <;> simp

/-- The event-time-slice of the C3 counterexample: no notice-text section. -/
def etsNoText : JVal := .obj [("series", .str "A")]

/-- A tree whose five guarded sections resolve but whose notice-text
section is absent under both candidate keys. -/
def aixmNoText : JVal :=
  .obj [("AIXMBasicMessage", .obj [("hasMember", .obj [("Event",
    .obj [("timeSlice", .obj [("EventTimeSlice", etsNoText)])])])])]

/-- C3 counterexample: the notice-text section is absent under both of its
candidate keys, yet parse returns a record rather than aborting with
null — refuting the claim that absence of *any* chain section (including
the notice-text section) yields null. -/
theorem parseAIXM_missing_textNOTAM_counterexample :
    (jsOr (getProp etsNoText "textNOTAM")
        (getProp etsNoText "event:textNOTAM")).isNone = true ∧
      (parseAIXMMessage jsDateNone 0 aixmNoText "raw").isSome = true :=
  ⟨rfl, rfl⟩

/-- C10: once the guarded chain through the event-time-slice resolves,
parse always returns a record; the location falls back to the sentinel
`ZZZZ` when absent, and the effective start falls back to the current
wall-clock time when absent or unparseable (including the valid-time
fallback). -/
theorem parseAIXM_chain_resolved_fallbacks (jsDate : String → Option Int)
    (nowT : Int) (p : JVal) (raw : String) (ets : JVal)
    (h : navChain p = some ets) :
    ∃ rec : NOTAMRec, parseAIXMMessage jsDate nowT p raw = some rec ∧
      (extractField (notamDataOf ets) ["location", "event:location", "icaoLocation"]
          = none → rec.icao_location = "ZZZZ") ∧
      (extractStart jsDate (notamDataOf ets) ets = none →
        rec.effective_start = DateVal.now nowT) := by
  refine ⟨extractNOTAMFromData jsDate nowT (notamDataOf ets) ets raw, ?_, ?_, ?_⟩
  · unfold parseAIXMMessage
    rw [h]
  · intro hloc
    show strOr (extractField (notamDataOf ets)
      ["location", "event:location", "icaoLocation"]) "ZZZZ" = "ZZZZ"
    rw [hloc]
    rfl
  · intro hs
    show (extractStart jsDate (notamDataOf ets) ets).getD (.now nowT) = DateVal.now nowT
    rw [hs]
    rfl

/-- Event-time-slice for the C10 witness: no location, unparseable start. -/
def etsFallbackW : JVal := .obj [("effectiveStart", .str "garbage")]

/-- Chain wrapper for the C10 witness. -/
def aixmFallbackW : JVal :=
  .obj [("AIXMBasicMessage", .obj [("hasMember", .obj [("Event",
    .obj [("timeSlice", .obj [("EventTimeSlice", etsFallbackW)])])])])]

/-- Witness for C10: with no location field and a start that parses under
no format, the record comes back with `ZZZZ` and the wall clock. -/
theorem parseAIXM_chain_resolved_fallbacks_witness :
    ∃ rec : NOTAMRec, parseAIXMMessage jsDateNone 7 aixmFallbackW "r" = some rec ∧
      rec.icao_location = "ZZZZ" ∧ rec.effective_start = DateVal.now 7 := by
  obtain ⟨rec, h1, h2, h3⟩ := parseAIXM_chain_resolved_fallbacks jsDateNone 7
    aixmFallbackW "r" etsFallbackW rfl
  exact ⟨rec, h1, h2 rfl, h3 rfl⟩

/-- C9 counterexample: in `"A1/23\nA)\nB) X"` all three required fields
are assigned by the end of line processing (the bare `A)` line assigns an
empty location), yet parse returns null — refuting the claimed
equivalence between "assigned" and a non-null result. -/
theorem parseText_assigned_but_null_counterexample :
    (processLines jsDateNone 0 "A1/23\nA)\nB) X").notam_id.isSome = true ∧
      (processLines jsDateNone 0 "A1/23\nA)\nB) X").icao_location.isSome = true ∧
      (processLines jsDateNone 0 "A1/23\nA)\nB) X").effective_start.isSome = true ∧
      parseTextNOTAM jsDateNone 0 "A1/23\nA)\nB) X" = none :=
  ⟨rfl, rfl, rfl, rfl⟩

/-- `strFieldTruthy` unpacked. -/
theorem strFieldTruthy_eq (o : Option String) :
    strFieldTruthy o = true ↔ (o.isSome = true ∧ o ≠ some "") := by
  cases o with
  | none => simp [strFieldTruthy]
  | some s => simp [strFieldTruthy]

/-- Each loop iteration either leaves the identifier unchanged or assigns
the first token of a line matching the identifier pattern. -/
theorem processLine_id_cases (jsDate : String → Option Int) (nowT : Int)
    (st : TextState) (line : String) :
    (processLine jsDate nowT st line).notam_id = st.notam_id ∨
      ∃ l, (processLine jsDate nowT st line).notam_id = some (firstToken l) ∧
        matchesNotamIdPattern l = true := by
  unfold processLine
  split_ifs with h1 h2 h3 h4 h5 h6
  · exact Or.inl rfl
  · exact Or.inl rfl
  · exact Or.inl rfl
  · exact Or.inl rfl
  · exact Or.inl rfl
  · refine Or.inr ⟨line, rfl, ?_⟩
    simp only [Bool.and_eq_true] at h6
    exact h6.2
  · exact Or.inl rfl

/-- The first token of an identifier-pattern line is non-empty. -/
theorem firstToken_ne_empty (l : String) (h : matchesNotamIdPattern l = true) :
    firstToken l ≠ "" := by
  unfold matchesNotamIdPattern at h
  cases hl : l.toList with
  | nil => rw [hl] at h; simp at h
  | cons c rest =>
    rw [hl] at h
    simp only [Bool.and_eq_true, decide_eq_true_eq] at h
    obtain ⟨⟨hAc, _⟩, _⟩ := h
    have hnw : c.isWhitespace = false := by
      cases hws : c.isWhitespace with
      | false => rfl
      | true =>
        exfalso
        have hcases : ((c = ' ' ∨ c = '\t') ∨ c = '\x0d') ∨ c = '\n' := by
          have hw := hws
          unfold Char.isWhitespace at hw
          simpa using hw
        rcases hcases with ((h1 | h1) | h1) | h1 <;>
          (subst h1; exact absurd hAc (by decide))
    unfold firstToken
    rw [hl]
    intro hcontra
    have hdata := congrArg String.data hcontra
    simp [List.takeWhile_cons, hnw] at hdata

/-- Over the whole loop: an assigned identifier is never the empty
string. -/
theorem processLines_id_nonempty (jsDate : String → Option Int) (nowT : Int)
    (lines : List String) (st : TextState)
    (h : st.notam_id.isSome = true → st.notam_id ≠ some "") :
    (lines.foldl (processLine jsDate nowT) st).notam_id.isSome = true →
      (lines.foldl (processLine jsDate nowT) st).notam_id ≠ some "" := by
  induction lines generalizing st with
  | nil => simpa using h
  | cons line rest ih =>
    simp only [List.foldl_cons]
    apply ih
    rcases processLine_id_cases jsDate nowT st line with heq | ⟨l, heq, hpat⟩
    · rw [heq]; exact h
    · rw [heq]
      intro _
      intro hcontra
      exact firstToken_ne_empty l hpat (by simpa using hcontra)

/-- C9 (amended): the legacy text parse returns a non-null record iff,
after processing all lines, the identifier is assigned, the location is
assigned a **non-empty** value, and the effective start is assigned (a
bare `A)` line assigns an empty location, which still yields null);
moreover an assigned identifier is automatically non-empty, so the
truthiness check and "assigned" coincide for the identifier, and a `B)`
line always assigns a start, so they coincide for the start as well. -/
theorem parseTextNOTAM_requires_fields (jsDate : String → Option Int)
    (nowT : Int) (text : String) :
    ((parseTextNOTAM jsDate nowT text).isSome = true ↔
      ((processLines jsDate nowT text).notam_id.isSome = true ∧
        (processLines jsDate nowT text).icao_location.isSome = true ∧
        (processLines jsDate nowT text).icao_location ≠ some "" ∧
        (processLines jsDate nowT text).effective_start.isSome = true)) ∧
      ((processLines jsDate nowT text).notam_id.isSome = true →
        (processLines jsDate nowT text).notam_id ≠ some "") := by
  have hid : (processLines jsDate nowT text).notam_id.isSome = true →
      (processLines jsDate nowT text).notam_id ≠ some "" := by
    unfold processLines
    exact processLines_id_nonempty jsDate nowT (textLines text)
      ⟨none, none, none, none, none, text⟩ (by simp)
  refine ⟨?_, hid⟩
  have hiff : (parseTextNOTAM jsDate nowT text).isSome = true ↔
      (strFieldTruthy (processLines jsDate nowT text).notam_id &&
        strFieldTruthy (processLines jsDate nowT text).icao_location &&
        (processLines jsDate nowT text).effective_start.isSome) = true := by
    unfold parseTextNOTAM
    by_cases hcond : (strFieldTruthy (processLines jsDate nowT text).notam_id &&
        strFieldTruthy (processLines jsDate nowT text).icao_location &&
        (processLines jsDate nowT text).effective_start.isSome) = true
    · rw [if_pos hcond]
      simp [hcond]
    · rw [if_neg hcond]
      simp [hcond]
  rw [hiff, Bool.and_eq_true, Bool.and_eq_true, strFieldTruthy_eq, strFieldTruthy_eq]
  constructor
  · rintro ⟨⟨⟨h1, _⟩, h3, h4⟩, h5⟩
    exact ⟨h1, h3, h4, h5⟩
  · rintro ⟨h1, h3, h4, h5⟩
    exact ⟨⟨⟨h1, hid h1⟩, h3, h4⟩, h5⟩

/-- Witness for C9 (amended): a full legacy message parses to a record;
the backward direction of the equivalence is exercised with the processed
state's fields discharged by evaluation. -/
theorem parseTextNOTAM_requires_fields_witness :
    (parseTextNOTAM jsDateNone 0 "A2/1234\nA) KJFK\nB) 2501151400").isSome = true :=
  (parseTextNOTAM_requires_fields jsDateNone 0
      "A2/1234\nA) KJFK\nB) 2501151400").1.mpr
    ⟨rfl, rfl, by decide, rfl⟩

/-- C2 counterexample: a parse-failure message arriving at a CLOSED
breaker with two recorded failures is acknowledged, but the breaker state
is *not* left unchanged — the success recording zeroes the counter. -/
theorem handleParseFailure_touches_breaker_counterexample :
    ¬ ((handleMessageParseFailure 10 ⟨2, some 0, false⟩ 0).acked = true ∧
        (handleMessageParseFailure 10 ⟨2, some 0, false⟩ 0).breaker
          = ⟨2, some 0, false⟩) := by
  decide

/-- C2 (amended): for every message whose payload parses to null arriving
while the breaker is CLOSED, the handler acknowledges the message and
records a success on the breaker: the failure counter is zeroed, while
the last-failure timestamp and the open flag are unchanged. -/
theorem handleParseFailure_ack_and_success (timeout : Int) (cb : CBState)
    (now : Int) (hclosed : cb.isOpen = false) :
    (handleMessageParseFailure timeout cb now).acked = true ∧
      (handleMessageParseFailure timeout cb now).breaker
        = ⟨0, cb.lastFailure, false⟩ := by
  obtain ⟨f, lf, o⟩ := cb
  simp only at hclosed
  subst hclosed
  have hreq : isRequestAllowed timeout ⟨f, lf, false⟩ now = (true, ⟨f, lf, false⟩) := by
    simp [isRequestAllowed]
  unfold handleMessageParseFailure
  rw [hreq]
  refine ⟨rfl, ?_⟩
  show recordSuccess ⟨f, lf, false⟩ = ⟨0, lf, false⟩
  by_cases h : f > 0
  · simp [recordSuccess, h]
  · have : f = 0 := by omega
    subst this
    simp [recordSuccess]

/-- Witness for C2 (amended) at a closed breaker with two failures. -/
theorem handleParseFailure_ack_and_success_witness :
    (handleMessageParseFailure 10 ⟨2, some 5, false⟩ 100).acked = true ∧
      (handleMessageParseFailure 10 ⟨2, some 5, false⟩ 100).breaker
        = ⟨0, some 5, false⟩ :=
  handleParseFailure_ack_and_success 10 ⟨2, some 5, false⟩ 100 rfl

end Notams
